import Mathlib

/-!
Shallow embedding of the product-catalog-service core: the Money and
Discount value objects, the Product aggregate with its change tracker and
domain events, the pricing calculator, and the commit-plan building of the
update-product interactor.

Modelling conventions:
* `time.Time` is modelled as an integer instant (`Time := Int`);
  `t.Before u` is `t < u`.
* Go's `int64` money amounts are modelled as unbounded `Int`; no settled
  claim exercises amounts near the `int64` boundary, so two's-complement
  wrap-around is not modelled.
* Go sentinel errors and the one inline `errors.New` are the constructors
  of the `Err` inductive; the wrapped error
  `fmt.Errorf("%w: %s vs %s", ErrCurrencyMismatch, ...)` is the
  `currencyMismatchDetail` constructor, and `Err.IsMismatch` models
  `errors.Is(err, ErrCurrencyMismatch)`.
* A Go method that mutates its receiver and returns `error` is modelled as
  a function returning the post-call state paired with an optional error
  (`Product × Option Err`), so "no mutation on failure" is expressible.
* `float64` percentage arithmetic is modelled over `ℚ` with `math.Round`'s
  documented round-half-away-from-zero; claims whose truth depends on
  IEEE-754 double rounding itself are out of the model's reach.
-/

namespace ProductCatalog

/-- `time.Time`, modelled as an integer instant (e.g. Unix nanoseconds);
`a.Before(b)` is `a < b`. -/
abbrev Time := Int

/-- The domain's sentinel errors (`errors.go`), plus:
`discountNil` for the inline `errors.New("discount must not be nil")` in
`Product.ApplyDiscount`, and `currencyMismatchDetail` for the wrapped
`fmt.Errorf("%w: %s vs %s", ErrCurrencyMismatch, m.currency, other.currency)`
in `Money.sameCurrency`. -/
inductive Err where
  | discountInvalidPercentage
  | discountInvalidPeriod
  | productNotActive
  | productNotFound
  | productIDRequired
  | productNameRequired
  | productBasePriceRequired
  | invalidDiscountPeriod
  | noActiveDiscount
  | invalidStatus
  | negativeAmount
  | currencyMismatch
  | invalidCurrency
  | divisionByZero
  | invalidDiscountAmount
  | discountNil
  | currencyMismatchDetail (c1 c2 : String)
deriving Repr, DecidableEq

/-- `errors.Is(e, ErrCurrencyMismatch)`: true for the bare sentinel and for
the wrapped mismatch error (which wraps the sentinel via `%w`). -/
def Err.IsMismatch : Err → Bool
  | .currencyMismatch => true
  | .currencyMismatchDetail _ _ => true
  | _ => false

/-- Immutable monetary value object (`money.go`): amount in minor units
plus an ISO-4217 currency code. -/
structure Money where
  amount : Int
  currency : String
deriving Repr, DecidableEq

/-- `NewMoney`: rejects a negative amount and a currency code whose length
is not 3. -/
def NewMoney (amount : Int) (currency : String) : Except Err Money :=
  if amount < 0 then .error .negativeAmount
  else if currency.length ≠ 3 then .error .invalidCurrency
  else .ok ⟨amount, currency⟩

/-- `Money.sameCurrency`: guards cross-currency operations. A nil operand
yields the bare `ErrCurrencyMismatch` sentinel; differing currencies yield
the wrapped mismatch error carrying both codes. -/
def Money.sameCurrency (m : Money) (other : Option Money) : Option Err :=
  match other with
  | none => some .currencyMismatch
  | some o =>
      if m.currency ≠ o.currency then some (.currencyMismatchDetail m.currency o.currency)
      else none

/-- `Money.Add`: sum of the two amounts after the `sameCurrency` guard. -/
def Money.Add (m : Money) (other : Option Money) : Except Err Money :=
  match m.sameCurrency other, other with
  | some e, _ => .error e
  | none, some o => .ok ⟨m.amount + o.amount, m.currency⟩
  | none, none => .error .currencyMismatch  -- unreachable: sameCurrency fails on nil

/-- `Money.Subtract`: difference after the guard; a negative result is
rejected with `ErrNegativeAmount`. -/
def Money.Subtract (m : Money) (other : Option Money) : Except Err Money :=
  match m.sameCurrency other, other with
  | some e, _ => .error e
  | none, some o =>
      if m.amount - o.amount < 0 then .error .negativeAmount
      else .ok ⟨m.amount - o.amount, m.currency⟩
  | none, none => .error .currencyMismatch  -- unreachable: sameCurrency fails on nil

/-- `Money.IsGreaterThan`: strict amount comparison after the guard. -/
def Money.IsGreaterThan (m : Money) (other : Option Money) : Except Err Bool :=
  match m.sameCurrency other, other with
  | some e, _ => .error e
  | none, some o => .ok (decide (o.amount < m.amount))
  | none, none => .error .currencyMismatch  -- unreachable: sameCurrency fails on nil

/-- `Money.IsLessThan`: strict amount comparison after the guard. -/
def Money.IsLessThan (m : Money) (other : Option Money) : Except Err Bool :=
  match m.sameCurrency other, other with
  | some e, _ => .error e
  | none, some o => .ok (decide (m.amount < o.amount))
  | none, none => .error .currencyMismatch  -- unreachable: sameCurrency fails on nil

/-- An exact decimal number with value `num / 10^scale`: the quantity
`strconv.ParseFloat` reads from a decimal literal (the rounding of that
value to a binary `float64` is abstracted away, keeping the value exact). -/
structure Decimal where
  num : Int
  scale : Nat
deriving Repr, DecidableEq

/-- `math.Round (a / b)` for an exact fraction with positive denominator
`b`: round to the nearest integer, ties away from zero. -/
def roundHalfAwayFrac (a b : Int) : Int :=
  if a < 0 then -((2 * (-a) + b) / (2 * b)) else (2 * a + b) / (2 * b)

/-- `Money.ApplyPercentageDiscount`: scales the amount by
`1 - percentage/100` and rounds to the nearest minor unit. The Go
computation `math.Round(float64(m.amount) * (1 - percentage/100))` is
modelled exactly: with `percentage = num / 10^scale` the scaled amount is
the fraction `amount * (100·10^scale - num) / (100·10^scale)`. -/
def Money.ApplyPercentageDiscount (m : Money) (percentage : Decimal) : Except Err Money :=
  let den : Int := 100 * (10 : Int) ^ percentage.scale
  if percentage.num < 0 ∨ den < percentage.num then .error .invalidDiscountAmount
  else .ok ⟨roundHalfAwayFrac (m.amount * (den - percentage.num)) den, m.currency⟩

/-- Discount value object (`discount.go`): the percentage is stored as its
decimal string, parsed only at the point of computation; the validity
window is half-open. -/
structure Discount where
  percentage : String
  startsAt : Time
  endsAt : Time
deriving Repr, DecidableEq

/-- `Discount.IsValidAt`: `startsAt ≤ now < endsAt`
(`!now.Before(startsAt) && now.Before(endsAt)`). -/
def Discount.IsValidAt (d : Discount) (now : Time) : Bool :=
  !(now < d.startsAt) && (now < d.endsAt)

/-- `Discount.IsExpired`: `now ≥ endsAt`. -/
def Discount.IsExpired (d : Discount) (now : Time) : Bool :=
  !(now < d.endsAt)

/-- `Discount.IsUpcoming`: `now < startsAt`. -/
def Discount.IsUpcoming (d : Discount) (now : Time) : Bool :=
  now < d.startsAt

/-- Reads an unsigned decimal digit string as a natural number; `none` if
any character is not a digit. -/
def digitsVal (cs : List Char) : Option Nat :=
  cs.foldl
    (fun acc c =>
      match acc with
      | none => none
      | some n => if c.isDigit then some (n * 10 + (c.toNat - 48)) else none)
    (some 0)

/-- Splits a character list at each `'.'` (the pieces, in order, with the
dots removed). -/
def splitOnDot : List Char → List (List Char)
  | [] => [[]]
  | c :: rest =>
      if c = '.' then [] :: splitOnDot rest
      else
        match splitOnDot rest with
        | [] => [[c]]
        | g :: gs => (c :: g) :: gs

/-- Reads an unsigned decimal literal from a character list: either all
digits, or digits-dot-digits. -/
def parseUnsignedDecimal (cs : List Char) : Option Decimal :=
  match splitOnDot cs with
  | [intPart] => (digitsVal intPart).map (fun n => ⟨(n : Int), 0⟩)
  | [intPart, fracPart] =>
      match digitsVal intPart, digitsVal fracPart with
      | some i, some f =>
          if fracPart.isEmpty then none
          else some ⟨(i : Int) * (10 : Int) ^ fracPart.length + (f : Int), fracPart.length⟩
      | _, _ => none
  | _ => none

/-- Models `strconv.ParseFloat` on the decimal literals used for discount
percentages (`"10"`, `"10.5"`, optionally signed), returning the exact
decimal value; the `float64` rounding of the parse is abstracted away. -/
def parseDecimal (s : String) : Option Decimal :=
  if s.isEmpty then none
  else
    match s.toList with
    | '-' :: rest => (parseUnsignedDecimal rest).map (fun d => ⟨-d.num, d.scale⟩)
    | cs => parseUnsignedDecimal cs

/-- `type Field string` from `change_tracking.go`. -/
abbrev Field := String

def FieldName : Field := "name"
def FieldDiscount : Field := "discount"
def FieldDescription : Field := "description"
def FieldCategory : Field := "category"
def FieldBasePrice : Field := "base_price"
def FieldStatus : Field := "status"

/-- `type ProductStatus string` with its two constants. -/
abbrev ProductStatus := String

def ProductStatusActive : ProductStatus := "active"
def ProductStatusInactive : ProductStatus := "inactive"

/-- The change tracker's dirty set (`Changes`). The Go `map[Field]struct{}`
is modelled as a duplicate-free list in insertion order (the map's random
iteration order is thereby refined to a deterministic one); the `sync`
mutex guards intra-request data races only and has no sequential effect. -/
structure Changes where
  dirty : List Field
deriving Repr, DecidableEq

/-- `NewChanges`: empty dirty set. -/
def NewChanges : Changes := ⟨[]⟩

/-- `Changes.Dirty`: membership test. -/
def Changes.Dirty (c : Changes) (f : Field) : Bool :=
  c.dirty.contains f

/-- `Changes.MarkDirty`: set insertion (a field already present is not
duplicated, matching `map` assignment). -/
def Changes.MarkDirty (c : Changes) (f : Field) : Changes :=
  if c.dirty.contains f then c else ⟨c.dirty ++ [f]⟩

/-- `Changes.Clear`: empties the dirty set. -/
def Changes.Clear (_ : Changes) : Changes := ⟨[]⟩

/-- The domain events of `events.go` as a closed sum. Go's `DomainEvent`
is an open interface, so a seventh constructor `unknown` stands for any
implementation outside the six types known to the event repository's
serializer (its `default` case). -/
inductive DomainEvent where
  | created (productID name category : String) (basePrice : Option Money)
      (status : ProductStatus) (occurredAt : Time)
  | updated (productID : String) (changedFields : List Field) (occurredAt : Time)
  | activated (productID : String) (occurredAt : Time)
  | deactivated (productID : String) (occurredAt : Time)
  | discountApplied (productID percentage : String) (startsAt endsAt occurredAt : Time)
  | discountRemoved (productID : String) (occurredAt : Time)
  | unknown (tag : String) (occurredAt : Time)
deriving Repr, DecidableEq

/-- `EventName()` of each event type (the `unknown` stand-in reports its
tag). -/
def DomainEvent.EventName : DomainEvent → String
  | .created .. => "product.created"
  | .updated .. => "product.updated"
  | .activated .. => "product.activated"
  | .deactivated .. => "product.deactivated"
  | .discountApplied .. => "product.discount_applied"
  | .discountRemoved .. => "product.discount_removed"
  | .unknown tag _ => tag

/-- The Product aggregate root (`product.go`). -/
structure Product where
  id : String
  name : String
  description : String
  category : String
  basePrice : Option Money
  discount : Option Discount
  status : ProductStatus
  changes : Changes
  events : List DomainEvent
deriving Repr, DecidableEq

/-- `NewProduct`: validates the required fields, starts Active with an
empty dirty set, and records a `ProductCreatedEvent`. The `uuid.NewString()`
call is modelled by taking the fresh id as a parameter. -/
def NewProduct (id name description category : String) (basePrice : Option Money)
    (now : Time) : Except Err Product :=
  if name = "" then .error .productNameRequired
  else
    match basePrice with
    | none => .error .productBasePriceRequired
    | some _ =>
        .ok { id, name, description, category, basePrice
              discount := none
              status := ProductStatusActive
              changes := NewChanges
              events := [.created id name category basePrice ProductStatusActive now] }

/-- `Reconstitute`: rebuilds a Product from persisted state with no events
and an empty dirty set, validating id, name and status. -/
def Reconstitute (id name description category : String) (basePrice : Option Money)
    (discount : Option Discount) (status : ProductStatus) : Except Err Product :=
  if id = "" then .error .productIDRequired
  else if name = "" then .error .productNameRequired
  else if status ≠ ProductStatusActive ∧ status ≠ ProductStatusInactive then
    .error .invalidStatus
  else
    .ok { id, name, description, category, basePrice, discount, status
          changes := NewChanges
          events := [] }

/-- `Product.SetName`: rejects an empty name, no-ops on an equal value,
otherwise updates the name and marks it dirty. The Go method mutates its
receiver and returns `error`; here it returns the post-call state paired
with the optional error. -/
def Product.SetName (p : Product) (name : String) : Product × Option Err :=
  if name = "" then (p, some .productNameRequired)
  else if p.name = name then (p, none)
  else ({ p with name, changes := p.changes.MarkDirty FieldName }, none)

/-- `Product.SetDescription`: no-ops on an equal value, otherwise updates
and marks dirty (no error return in Go). -/
def Product.SetDescription (p : Product) (description : String) : Product :=
  if p.description = description then p
  else { p with description, changes := p.changes.MarkDirty FieldDescription }

/-- `Product.SetCategory`: no-ops on an equal value, otherwise updates and
marks dirty (no error return in Go). -/
def Product.SetCategory (p : Product) (category : String) : Product :=
  if p.category = category then p
  else { p with category, changes := p.changes.MarkDirty FieldCategory }

/-- `Product.SetBasePrice`: rejects a nil price; otherwise it
unconditionally stores the price and marks `base_price` dirty — there is
no equal-value check in the source. -/
def Product.SetBasePrice (p : Product) (price : Option Money) : Product × Option Err :=
  match price with
  | none => (p, some .productBasePriceRequired)
  | some _ => ({ p with basePrice := price, changes := p.changes.MarkDirty FieldBasePrice }, none)

/-- `Product.Activate`: no-op when already Active; otherwise flips the
status, marks it dirty and appends `ProductActivatedEvent`. (The Go error
return is always nil.) -/
def Product.Activate (p : Product) (now : Time) : Product :=
  if p.status = ProductStatusActive then p
  else { p with status := ProductStatusActive
                changes := p.changes.MarkDirty FieldStatus
                events := p.events ++ [.activated p.id now] }

/-- `Product.Deactivate`: no-op when already Inactive; otherwise flips the
status, clears any discount (emitting `DiscountRemovedEvent` first) and
appends `ProductDeactivatedEvent`. (The Go error return is always nil.) -/
def Product.Deactivate (p : Product) (now : Time) : Product :=
  if p.status = ProductStatusInactive then p
  else
    let p1 : Product := { p with status := ProductStatusInactive
                                 changes := p.changes.MarkDirty FieldStatus }
    let p2 : Product :=
      match p1.discount with
      | some _ => { p1 with events := p1.events ++ [.discountRemoved p1.id now]
                            discount := none
                            changes := p1.changes.MarkDirty FieldDiscount }
      | none => p1
    { p2 with events := p2.events ++ [.deactivated p2.id now] }

/-- `Product.ApplyDiscount`: fails fast (state untouched) when the product
is not Active, the discount is nil, or the window is invalid at `now`;
otherwise stores the discount, marks it dirty and appends
`DiscountAppliedEvent`. -/
def Product.ApplyDiscount (p : Product) (discount : Option Discount) (now : Time) :
    Product × Option Err :=
  if p.status ≠ ProductStatusActive then (p, some .productNotActive)
  else
    match discount with
    | none => (p, some .discountNil)
    | some d =>
        if !d.IsValidAt now then (p, some .invalidDiscountPeriod)
        else
          ({ p with discount := some d
                    changes := p.changes.MarkDirty FieldDiscount
                    events := p.events ++ [.discountApplied p.id d.percentage d.startsAt d.endsAt now] },
           none)

/-- `Product.RemoveDiscount`: fails when no discount is present; otherwise
clears it, marks it dirty and appends `DiscountRemovedEvent`. -/
def Product.RemoveDiscount (p : Product) (now : Time) : Product × Option Err :=
  match p.discount with
  | none => (p, some .noActiveDiscount)
  | some _ =>
      ({ p with discount := none
                changes := p.changes.MarkDirty FieldDiscount
                events := p.events ++ [.discountRemoved p.id now] },
       none)

/-- `Product.RecordUpdate`: no-op when the dirty set is empty; otherwise
appends one `ProductUpdatedEvent` listing the currently dirty fields (the
Go map iteration order is refined to the tracker's insertion order). -/
def Product.RecordUpdate (p : Product) (now : Time) : Product :=
  if p.changes.dirty = [] then p
  else { p with events := p.events ++ [.updated p.id p.changes.dirty now] }

/-- `PricingCalculator.EffectivePrice`: the base price unchanged when there
is no discount valid at `now`, otherwise the base price with the parsed
percentage applied. -/
def EffectivePrice (basePrice : Option Money) (discount : Option Discount) (now : Time) :
    Except Err Money :=
  match basePrice with
  | none => .error .productBasePriceRequired
  | some base =>
      match discount with
      | none => .ok base
      | some d =>
          if !d.IsValidAt now then .ok base
          else
            match parseDecimal d.percentage with
            | none => .error .discountInvalidPercentage
            | some pct => base.ApplyPercentageDiscount pct

/-- `PricingCalculator.DiscountAmount`: zero money in the base currency
when there is no discount valid at `now`, otherwise the base price minus
the effective price. -/
def DiscountAmount (basePrice : Option Money) (discount : Option Discount) (now : Time) :
    Except Err Money :=
  match basePrice with
  | none => .error .productBasePriceRequired
  | some base =>
      match NewMoney 0 base.currency with
      | .error e => .error e
      | .ok zero =>
          match discount with
          | none => .ok zero
          | some d =>
              if !d.IsValidAt now then .ok zero
              else
                match EffectivePrice (some base) (some d) now with
                | .error e => .error e
                | .ok effective => base.Subtract (some effective)

/-- `PricingCalculator.IsDiscounted`: a discount is present and valid at
`now`. -/
def IsDiscounted (discount : Option Discount) (now : Time) : Bool :=
  match discount with
  | none => false
  | some d => d.IsValidAt now

/-- The outbox payload built by `marshalPayload`'s per-variant anonymous
structs; the JSON encoding of these fixed-shape structs (which cannot fail)
is abstracted to the struct itself, and the RFC3339 rendering of the
discount window keeps the raw instants. -/
inductive EventPayload where
  | created (product_id name category statusStr : String)
  | updated (product_id : String) (changed_fields : List String)
  | activated (product_id : String)
  | deactivated (product_id : String)
  | discountApplied (product_id percentage : String) (starts_at ends_at : Time)
  | discountRemoved (product_id : String)
deriving Repr, DecidableEq

/-- `marshalPayload`: one case per known event type; any other
`DomainEvent` implementation hits the `default` case and fails with an
unknown-event-type error (modelled as the error message string). -/
def marshalPayload : DomainEvent → Except String EventPayload
  | .created productID name category _ statusStr _ =>
      .ok (.created productID name category statusStr)
  | .updated productID changedFields _ =>
      .ok (.updated productID changedFields)
  | .activated productID _ => .ok (.activated productID)
  | .deactivated productID _ => .ok (.deactivated productID)
  | .discountApplied productID percentage startsAt endsAt _ =>
      .ok (.discountApplied productID percentage startsAt endsAt)
  | .discountRemoved productID _ => .ok (.discountRemoved productID)
  | .unknown tag _ => .error ("unknown event type: " ++ tag)

/-- `aggregateIDOf`: the product id carried by every known event type; the
unknown stand-in does not expose one, so the Go type assertion fails and
the empty string is returned. -/
def aggregateIDOf : DomainEvent → String
  | .created productID .. => productID
  | .updated productID .. => productID
  | .activated productID _ => productID
  | .deactivated productID _ => productID
  | .discountApplied productID .. => productID
  | .discountRemoved productID _ => productID
  | .unknown _ _ => ""

/-- A Spanner mutation descriptor, at the granularity the claims need: an
outbox-event INSERT row (`EventRepo.InsertMut`) or a products-table UPDATE
naming the columns written besides the always-written `product_id` and
`updated_at` (`ProductRepo.UpdateMut`; the column values — the product's
current field values — are elided). -/
inductive Mutation where
  | insertOutboxEvent (eventID eventType aggregateID : String) (payload : EventPayload)
  | updateProduct (productID : String) (columns : List String)
deriving Repr, DecidableEq

namespace EventRepo

/-- `EventRepo.InsertMut`: converts a domain event into an outbox INSERT.
When the payload cannot be serialised it returns nil (`none`) — the error
is swallowed, not propagated. `uuid.NewString()` is modelled by taking the
fresh event id as a parameter; the storage-assigned `created_at` commit
timestamp and the constant `"pending"` status column are elided. -/
def InsertMut (eventID : String) (event : DomainEvent) : Option Mutation :=
  match marshalPayload event with
  | .error _ => none
  | .ok payload => some (.insertOutboxEvent eventID event.EventName (aggregateIDOf event) payload)

end EventRepo

namespace ProductRepo

/-- `ProductRepo.UpdateMut`: the UPDATE mutation carrying exactly the dirty
columns; `none` when, beyond the bookkeeping `product_id`/`updated_at`
entries, no column was added (`len(updates) == 2`). -/
def UpdateMut (p : Product) : Option Mutation :=
  let cols : List String :=
    (if p.changes.Dirty FieldName then ["name"] else []) ++
    (if p.changes.Dirty FieldDescription then ["description"] else []) ++
    (if p.changes.Dirty FieldCategory then ["category"] else []) ++
    (if p.changes.Dirty FieldBasePrice then ["base_price_numerator", "base_price_denominator"] else []) ++
    (if p.changes.Dirty FieldStatus then ["status"] else []) ++
    (if p.changes.Dirty FieldDiscount then ["discount_percent", "discount_start_date", "discount_end_date"] else [])
  if cols = [] then none else some (.updateProduct p.id cols)

end ProductRepo

/-- `UpdateProductRequest` of the update-product interactor. -/
structure UpdateProductRequest where
  productID : String
  name : Option String
  description : Option String
  category : Option String
deriving Repr, DecidableEq

/-- The pure core of `UpdateProductInteractor.Execute`, from the point
where the product has been loaded: apply the requested setters (an error
aborts), call `RecordUpdate`, then build the commit plan from the state
UPDATE descriptor (skipped when nil) and one outbox descriptor per pending
event — each obtained from `EventRepo.InsertMut` and **silently skipped
when nil**. `.ok plan` means the plan is submitted to the Atomic Applier;
`genID i` supplies the uuid for the i-th event's outbox row. -/
def ExecuteUpdate (product : Product) (req : UpdateProductRequest) (now : Time)
    (genID : Nat → String) : Except Err (List Mutation) :=
  let step1 : Except Err Product :=
    match req.name with
    | some n =>
        match product.SetName n with
        | (_, some e) => .error e
        | (p1, none) => .ok p1
    | none => .ok product
  match step1 with
  | .error e => .error e
  | .ok p1 =>
      let p2 := match req.description with
                | some d => p1.SetDescription d
                | none => p1
      let p3 := match req.category with
                | some c => p2.SetCategory c
                | none => p2
      let p4 := p3.RecordUpdate now
      let statePlan : List Mutation :=
        match ProductRepo.UpdateMut p4 with
        | some m => [m]
        | none => []
      let eventPlan : List Mutation :=
        (p4.events.enum.filterMap fun ei => EventRepo.InsertMut (genID ei.1) ei.2)
      .ok (statePlan ++ eventPlan)

/-! Concrete fixtures used by witnesses and counterexamples. -/

def usd100 : Money := ⟨100, "USD"⟩

def disc10 : Discount := ⟨"10", 0, 100⟩

def disc20 : Discount := ⟨"20", 0, 100⟩

/-- An active product with no discount, clean tracker, no pending events. -/
def laptopActive : Product :=
  { id := "p-1", name := "Laptop", description := "d", category := "c"
    basePrice := some usd100, discount := none
    status := ProductStatusActive, changes := NewChanges, events := [] }

def laptopDiscounted : Product := { laptopActive with discount := some disc10 }

def laptopInactive : Product := { laptopActive with status := ProductStatusInactive }

def laptopDirtyName : Product := { laptopActive with changes := ⟨[FieldName]⟩ }

/-- The product `NewProduct "p-1" "Laptop" "d" "c" (some usd100) 0` builds. -/
def laptopNew : Product :=
  { laptopActive with
    events := [.created "p-1" "Laptop" "c" (some usd100) ProductStatusActive 0] }

/-- An update-scoped product whose pending queue holds one event the outbox
serializer has no case for. -/
def phantomEventProduct : Product :=
  { laptopActive with events := [.unknown "custom.event" 0] }

/-- C1: the spec requires that an event which cannot be converted into a
mutation descriptor aborts the whole commit before submission. The code
violates this: `EventRepo.InsertMut` swallows the serialisation error and
returns nil, and `UpdateProductInteractor.Execute` skips nil descriptors,
so the plan is submitted with the event silently omitted. At the failing
input — a pending event outside the serializer's known cases — the update
execution succeeds with an empty plan instead of failing. -/
theorem c1_event_descriptor_failure_is_silently_dropped :
    phantomEventProduct.events = [DomainEvent.unknown "custom.event" 0]
    ∧ marshalPayload (DomainEvent.unknown "custom.event" 0) =
        .error "unknown event type: custom.event"
    ∧ EventRepo.InsertMut "evt-1" (DomainEvent.unknown "custom.event" 0) = none
    ∧ ExecuteUpdate phantomEventProduct ⟨"p-1", none, none, none⟩ 0 (fun _ => "evt-1") =
        .ok [] :=
  ⟨rfl, rfl, rfl, rfl⟩

/-- C2 counterexample: `Reconstitute` accepts a nil base price — it returns
a Product (no validation error) whose `basePrice` is absent, refuting the
claim that every constructor call with a missing base price fails. -/
theorem c2_reconstitute_nil_base_price_accepted :
    Reconstitute "p-1" "Laptop" "" "" none none ProductStatusActive =
      .ok { id := "p-1", name := "Laptop", description := "", category := ""
            basePrice := none, discount := none, status := ProductStatusActive
            changes := NewChanges, events := [] } :=
  rfl

/-- C2 amended: `NewProduct` enforces both a non-empty name and a present
base price; `Reconstitute` enforces a non-empty id and name and a known
status, but does not check the base price, so only the name invariant holds
on its results. -/
theorem c2_constructor_validation_amended :
    (∀ id name description category basePrice now p,
        NewProduct id name description category basePrice now = .ok p →
        p.name ≠ "" ∧ p.basePrice ≠ none)
    ∧ (∀ id description category basePrice now,
        NewProduct id "" description category basePrice now = .error .productNameRequired)
    ∧ (∀ id name description category now, name ≠ "" →
        NewProduct id name description category none now = .error .productBasePriceRequired)
    ∧ (∀ id name description category basePrice discount status p,
        Reconstitute id name description category basePrice discount status = .ok p →
        p.name ≠ "")
    ∧ (∀ id description category basePrice discount status, id ≠ "" →
        Reconstitute id "" description category basePrice discount status =
          .error .productNameRequired) := by
  refine ⟨?_, ?_, ?_, ?_, ?_⟩
  · intro id name description category basePrice now p h
    unfold NewProduct at h
    by_cases hn : name = "" <;> simp [hn] at h
    match basePrice, h with
    | some m, h =>
        cases h
        exact ⟨hn, by simp⟩
  · intro id description category basePrice now
    simp [NewProduct]
  · intro id name description category now hn
    simp [NewProduct, hn]
  · intro id name description category basePrice discount status p h
    unfold Reconstitute at h
    by_cases hi : id = "" <;> simp [hi] at h
    by_cases hn : name = "" <;> simp [hn] at h
    split at h
    · cases h
    · cases h
      exact hn
  · intro id description category basePrice discount status hi
    simp [Reconstitute, hi]

/-- C2 witness: the amended theorem applied to a concrete construction. -/
theorem c2_witness : laptopNew.name ≠ "" ∧ laptopNew.basePrice ≠ none :=
  c2_constructor_validation_amended.1 "p-1" "Laptop" "d" "c" (some usd100) 0 laptopNew
    rfl

/-- C3 counterexample: `SetBasePrice` with a value equal to the current
base price is not a no-op — it succeeds, marks `base_price` dirty, and a
subsequent `RecordUpdate` appends an `Updated` event. -/
theorem c3_set_base_price_equal_value_marks_dirty :
    (laptopActive.SetBasePrice (some ⟨100, "USD"⟩)).2 = none
    ∧ laptopActive.basePrice = some ⟨100, "USD"⟩
    ∧ (laptopActive.SetBasePrice (some ⟨100, "USD"⟩)).1.changes.Dirty FieldBasePrice = true
    ∧ ((laptopActive.SetBasePrice (some ⟨100, "USD"⟩)).1.RecordUpdate 5).events =
        [DomainEvent.updated "p-1" [FieldBasePrice] 5] := by
  decide

/-- C3 amended: `SetName`, `SetDescription` and `SetCategory` called with a
value equal to the current one are no-ops (the product — fields, dirty set
and event queue — is returned unchanged, so a subsequent `RecordUpdate` on
a clean tracker appends nothing); `SetBasePrice`, however, always stores
the price and marks `base_price` dirty, even when the value is equal. -/
theorem c3_setter_noop_amended (p : Product) :
    (∀ name, name ≠ "" → p.name = name → p.SetName name = (p, none))
    ∧ (∀ description, p.description = description → p.SetDescription description = p)
    ∧ (∀ category, p.category = category → p.SetCategory category = p)
    ∧ (∀ price : Money, p.SetBasePrice (some price) =
        ({ p with basePrice := some price
                  changes := p.changes.MarkDirty FieldBasePrice }, none))
    ∧ (∀ now, p.changes.dirty = [] → p.RecordUpdate now = p) := by
  refine ⟨?_, ?_, ?_, ?_, ?_⟩
  · intro name hn h
    simp [Product.SetName, hn, h]
  · intro description h
    simp [Product.SetDescription, h]
  · intro category h
    simp [Product.SetCategory, h]
  · intro price
    simp [Product.SetBasePrice]
  · intro now h
    simp [Product.RecordUpdate, h]

/-- C3 witness: the amended theorem applied to a concrete product. -/
theorem c3_witness :
    laptopActive.SetName "Laptop" = (laptopActive, none)
    ∧ laptopActive.SetBasePrice (some usd100) =
        ({ laptopActive with basePrice := some usd100
                             changes := laptopActive.changes.MarkDirty FieldBasePrice }, none) :=
  ⟨(c3_setter_noop_amended laptopActive).1 "Laptop" (by decide) rfl,
   (c3_setter_noop_amended laptopActive).2.2.2.1 usd100⟩

/-- C4 counterexample: a nil second operand does not fail with an error
distinct from CurrencyMismatch — `Money.Add` with a nil operand returns the
bare `ErrCurrencyMismatch` sentinel itself (the same error kind
`errors.Is` recognises on a currency mismatch). -/
theorem c4_nil_operand_error_not_distinct :
    Money.Add ⟨100, "USD"⟩ none = .error Err.currencyMismatch
    ∧ Err.IsMismatch Err.currencyMismatch = true :=
  ⟨rfl, rfl⟩

/-- C4 amended: when both operands are present and the currencies differ,
`Add`, `Subtract`, `IsGreaterThan` and `IsLessThan` fail with the wrapped
CurrencyMismatch error carrying both codes; when the second operand is nil
they fail with the bare CurrencyMismatch sentinel — the same error kind,
not a distinct error. -/
theorem c4_binary_operand_errors_amended (m o : Money) :
    (m.currency ≠ o.currency →
        m.Add (some o) = .error (.currencyMismatchDetail m.currency o.currency)
        ∧ m.Subtract (some o) = .error (.currencyMismatchDetail m.currency o.currency)
        ∧ m.IsGreaterThan (some o) = .error (.currencyMismatchDetail m.currency o.currency)
        ∧ m.IsLessThan (some o) = .error (.currencyMismatchDetail m.currency o.currency)
        ∧ Err.IsMismatch (.currencyMismatchDetail m.currency o.currency) = true)
    ∧ (m.Add none = .error .currencyMismatch
        ∧ m.Subtract none = .error .currencyMismatch
        ∧ m.IsGreaterThan none = .error .currencyMismatch
        ∧ m.IsLessThan none = .error .currencyMismatch
        ∧ Err.IsMismatch .currencyMismatch = true) := by
  constructor
  · intro h
    refine ⟨?_, ?_, ?_, ?_, rfl⟩ <;>
      simp [Money.Add, Money.Subtract, Money.IsGreaterThan, Money.IsLessThan,
            Money.sameCurrency, h]
  · exact ⟨rfl, rfl, rfl, rfl, rfl⟩

/-- C4 witness: the amended theorem applied to concrete operands. -/
theorem c4_witness :
    Money.Add usd100 (some ⟨50, "EUR"⟩) = .error (.currencyMismatchDetail "USD" "EUR")
    ∧ Money.Subtract usd100 none = .error .currencyMismatch :=
  ⟨((c4_binary_operand_errors_amended usd100 ⟨50, "EUR"⟩).1 (by decide)).1,
   (c4_binary_operand_errors_amended usd100 ⟨50, "EUR"⟩).2.2.1⟩

/-- C5: `Deactivate` on an Active product holding a discount sets the
status to Inactive, clears the discount, and appends exactly the two
events `DiscountRemoved` then `Deactivated`, in that order; a second
`Deactivate` returns the product exactly as it was — zero new events,
no new dirty marks, every field unchanged. -/
theorem c5_deactivate_clears_discount_and_is_idempotent
    (p : Product) (d : Discount) (now now2 : Time)
    (hs : p.status = ProductStatusActive) (hd : p.discount = some d) :
    (p.Deactivate now).status = ProductStatusInactive
    ∧ (p.Deactivate now).discount = none
    ∧ (p.Deactivate now).events =
        p.events ++ [.discountRemoved p.id now, .deactivated p.id now]
    ∧ (p.Deactivate now).Deactivate now2 = p.Deactivate now
    ∧ (p.Deactivate now).name = p.name
    ∧ (p.Deactivate now).description = p.description
    ∧ (p.Deactivate now).category = p.category
    ∧ (p.Deactivate now).basePrice = p.basePrice := by
  have hne : p.status ≠ ProductStatusInactive := by
    rw [hs]; decide
  unfold Product.Deactivate
  simp only [if_neg hne, hd]
  simp [Product.Deactivate]

/-- C5 witness: the theorem applied to a concrete discounted product. -/
theorem c5_witness :
    (laptopDiscounted.Deactivate 5).events =
      [.discountRemoved "p-1" 5, .deactivated "p-1" 5]
    ∧ (laptopDiscounted.Deactivate 5).Deactivate 6 = laptopDiscounted.Deactivate 5
    ∧ (laptopDiscounted.Deactivate 5).discount = none :=
  have h := c5_deactivate_clears_discount_and_is_idempotent
    laptopDiscounted disc10 5 6 rfl rfl
  ⟨h.2.2.1, h.2.2.2.1, h.2.1⟩

/-- C6: `ApplyDiscount` on a non-Active product fails with the
product-not-active domain-rule error whatever the discount argument or the
clock; and every failing `ApplyDiscount` call (not active, nil discount,
or window invalid at `now`) leaves the product exactly as it was — fields,
dirty set and pending events all unchanged. -/
theorem c6_apply_discount_fail_fast (p : Product) (discount : Option Discount) (now : Time) :
    (p.status ≠ ProductStatusActive →
        p.ApplyDiscount discount now = (p, some .productNotActive))
    ∧ (∀ e, (p.ApplyDiscount discount now).2 = some e →
        (p.ApplyDiscount discount now).1 = p) := by
  constructor
  · intro h
    simp [Product.ApplyDiscount, h]
  · intro e
    unfold Product.ApplyDiscount
    by_cases h1 : p.status ≠ ProductStatusActive
    · simp [h1]
    · simp only [if_neg h1]
      cases discount with
      | none => simp
      | some d =>
          by_cases h2 : (!d.IsValidAt now) = true
          · simp [h2]
          · simp [h2]

/-- C6 witness: the theorem applied to an inactive product and a discount
whose window is perfectly valid at `now`. -/
theorem c6_witness :
    laptopInactive.ApplyDiscount (some disc10) 50 = (laptopInactive, some .productNotActive)
    ∧ disc10.IsValidAt 50 = true :=
  ⟨(c6_apply_discount_fail_fast laptopInactive (some disc10) 50).1 (by decide),
   by decide⟩

/-- C8: `DiscountAmount` on a valid base price returns zero money in the
base price's currency when the discount is nil or not valid at `now`, and
otherwise returns the base price minus the effective price at `now`
(propagating any effective-price error unchanged). -/
theorem c8_discount_amount (base : Money) (discount : Option Discount) (now : Time)
    (hc : base.currency.length = 3) :
    (IsDiscounted discount now = false →
        DiscountAmount (some base) discount now = .ok ⟨0, base.currency⟩)
    ∧ (∀ d, discount = some d → d.IsValidAt now = true →
        DiscountAmount (some base) discount now =
          match EffectivePrice (some base) discount now with
          | .error e => .error e
          | .ok effective => base.Subtract (some effective)) := by
  have hzero : NewMoney 0 base.currency = .ok ⟨0, base.currency⟩ := by
    simp [NewMoney, hc]
  constructor
  · intro h
    cases discount with
    | none =>
        simp only [DiscountAmount]
        rw [hzero]
    | some d =>
        simp only [IsDiscounted] at h
        simp only [DiscountAmount]
        rw [hzero]
        simp [h]
  · intro d hd hv
    subst hd
    simp only [DiscountAmount]
    rw [hzero]
    simp [hv]

/-- C8 witness: a 10% discount on 100 USD minor units, inside the window,
saves exactly 10 USD minor units. -/
theorem c8_witness :
    DiscountAmount (some usd100) (some disc10) 50 = .ok ⟨10, "USD"⟩ := by
  have h := (c8_discount_amount usd100 (some disc10) 50 (by decide)).2 disc10 rfl (by decide)
  rw [h]
  have he : EffectivePrice (some usd100) (some disc10) 50 = .ok ⟨90, "USD"⟩ := rfl
  rw [he]
  rfl

/-- C9: `RecordUpdate` is a no-op when the dirty set is empty, and
otherwise appends exactly one `Updated` event whose changed-fields list is
exactly the dirty set (membership in the list coincides with the
tracker's dirty test). -/
theorem c9_record_update (p : Product) (now : Time) :
    (p.changes.dirty = [] → p.RecordUpdate now = p)
    ∧ (p.changes.dirty ≠ [] →
        (p.RecordUpdate now).events = p.events ++ [.updated p.id p.changes.dirty now]
        ∧ ∀ f : Field, f ∈ p.changes.dirty ↔ p.changes.Dirty f = true) := by
  constructor
  · intro h
    simp [Product.RecordUpdate, h]
  · intro h
    refine ⟨by simp [Product.RecordUpdate, h], ?_⟩
    intro f
    simp [Changes.Dirty, List.contains]

/-- C9 witness: the theorem applied to a product whose only dirty field is
`name`. -/
theorem c9_witness :
    (laptopDirtyName.RecordUpdate 7).events = [.updated "p-1" [FieldName] 7]
    ∧ (FieldName ∈ laptopDirtyName.changes.dirty ↔
        laptopDirtyName.changes.Dirty FieldName = true) :=
  have h := (c9_record_update laptopDirtyName 7).2 (by decide)
  ⟨h.1, h.2 FieldName⟩

/-- C10: `ApplyDiscount` on an Active product that already holds a
discount, with a new discount valid at `now`, succeeds: it replaces the
stored discount with the new one and appends exactly one
`DiscountApplied` event — no `DiscountRemoved` is emitted for the
replaced discount. -/
theorem c10_apply_discount_replaces_silently
    (p : Product) (d0 d : Discount) (now : Time)
    (hs : p.status = ProductStatusActive) (_hd : p.discount = some d0)
    (hv : d.IsValidAt now = true) :
    p.ApplyDiscount (some d) now =
      ({ p with discount := some d
                changes := p.changes.MarkDirty FieldDiscount
                events := p.events ++
                  [.discountApplied p.id d.percentage d.startsAt d.endsAt now] },
       none) := by
  simp [Product.ApplyDiscount, hs, hv]

/-- C10 witness: replacing the 10% discount with a 20% one appends only
the `DiscountApplied` event. -/
theorem c10_witness :
    laptopDiscounted.ApplyDiscount (some disc20) 50 =
      ({ laptopDiscounted with
          discount := some disc20
          changes := laptopDiscounted.changes.MarkDirty FieldDiscount
          events := [.discountApplied "p-1" "20" 0 100 50] },
       none) :=
  c10_apply_discount_replaces_silently laptopDiscounted disc10 disc20 50 rfl rfl
    (by decide)

end ProductCatalog
